import Mathlib

/-!
Verification of the attendance-session lifecycle of a student attendance
tracking application (an Express router over a document store).

The embedding models the five route handlers of the attendance router:
  * POST /session/start  — open an attendance session (`openSession`)
  * PUT  /session/:sessionId/end — close a session (`closeSession`)
  * POST /mark — upsert one attendance record per (student, session) (`mark`)
  * GET  /student/:studentId — a student's records plus per-subject statistics
    (`getStudentAttendance`, `computeStats`)
  * GET  /report — filtered attendance report (`getReport`)

The document store is modelled as in-memory lists; `findOne` becomes
`List.find?`, `countDocuments` becomes the length of a `List.filter`, and
saving a found document back becomes `updateFirst` (replace the first
matching element in place).  Authentication middleware and express-validator
input validation are out of scope (the spec excludes schema/validation
boilerplate and treats auth as an external collaborator), so each handler is
modelled from the point where the validated request data is in hand.
Timestamps are natural numbers supplied by the caller (`now`), the optional
detection confidence is a rational, and JavaScript falsy-defaulting
(`x || 0`, `x || ''`) on an optional field is `Option.getD` (for `x = 0` or
`x = ''` the two agree, since the default equals the falsy value itself).
-/

namespace AttendanceApp

/-- Roles supplied by the identity service: `req.user.role`. -/
inductive Role where
  | student
  | faculty
  | admin
deriving DecidableEq, Repr

/-- Attendance status enum of the Attendance model: 'present' | 'absent' | 'late'. -/
inductive AttStatus where
  | present
  | absent
  | late
deriving DecidableEq, Repr

/-- Session status enum of the AttendanceSession model: 'active' | 'completed'. -/
inductive SessStatus where
  | active
  | completed
deriving DecidableEq, Repr

/-- A User document (only the fields the attendance router reads). -/
structure User where
  id : Nat
  username : String
  role : Role
  department : String
  division : String
  semester : Nat
  isActive : Bool
  enrollmentNumber : String
deriving DecidableEq, Repr

/-- A Subject document (only the fields the attendance router reads). -/
structure Subject where
  id : Nat
  name : String
deriving DecidableEq, Repr

/-- An AttendanceSession document. -/
structure Session where
  sessionId : String
  subject : Nat
  subjectName : String
  faculty : Nat
  facultyName : String
  date : Nat
  startTime : Nat
  endTime : Option Nat
  division : String
  department : String
  semester : Nat
  totalStudents : Int
  presentStudents : Int
  absentStudents : Int
  status : SessStatus
deriving DecidableEq, Repr

/-- An Attendance document: one student's outcome for one session. -/
structure Record where
  student : Nat
  studentName : String
  enrollmentNumber : String
  subject : Nat
  subjectName : String
  faculty : Nat
  facultyName : String
  date : Nat
  status : AttStatus
  division : String
  department : String
  semester : Nat
  sessionId : String
  detectionConfidence : ℚ
  remarks : String
deriving DecidableEq, Repr

/-- The document store: users, subjects, attendance sessions, attendance records. -/
structure State where
  users : List User
  subjects : List Subject
  sessions : List Session
  records : List Record
deriving DecidableEq, Repr

/-- The error outcomes the handlers surface (each tagged with the HTTP
response of the source).  `invalidSession` is the 400 'Invalid or inactive
session' of /mark, `studentNotFound` its 400 'Student not found',
`activeSessionNotFound` the 404 'Active session not found' of /session/end,
`subjectNotFound` / `facultyNotFound` the 400s of /session/start,
`accessDenied` the 403 of /student/:studentId, and `serverError` the generic
500 of a thrown exception. -/
inductive ApiError where
  | invalidSession
  | studentNotFound
  | activeSessionNotFound
  | subjectNotFound
  | facultyNotFound
  | accessDenied
  | serverError
deriving DecidableEq, Repr

/-- Replace the first element satisfying `p` by its image under `f`
(Mongoose `findOne` followed by `save` on the found document). -/
def updateFirst {α : Type} (p : α → Bool) (f : α → α) : List α → List α
  | [] => []
  | x :: xs => if p x then f x :: xs else x :: updateFirst p f xs

/-- The session lookup both /mark and /session/end perform:
`findOne({ sessionId, faculty: facultyId, status: 'active' })`. -/
def activeSessionPred (sessionId : String) (facultyId : Nat) (s : Session) : Bool :=
  s.sessionId == sessionId && s.faculty == facultyId && s.status == SessStatus.active

/-- The natural-key lookup of /mark:
`findOne({ student: studentId, sessionId })`. -/
def pairPred (studentId : Nat) (sessionId : String) (r : Record) : Bool :=
  r.student == studentId && r.sessionId == sessionId

/-- The field update the /mark handler performs on an existing record:
status, detectionConfidence (`|| 0`) and remarks (`|| ''`) are overwritten. -/
def applyMark (status : AttStatus) (confidence : Option ℚ) (remark : Option String)
    (r : Record) : Record :=
  { r with
    status := status
    detectionConfidence := confidence.getD 0
    remarks := remark.getD "" }

/-- POST /session/start: validates subject and faculty, snapshots
`totalStudents` as the number of active students of the requested
(department, division, semester) cohort, generates the composite session id
`Date.now()_facultyId_subjectId`, and appends a new active session. -/
def openSession (st : State) (facultyId : Nat) (subjectId : Nat)
    (division department : String) (semester : Nat) (now : Nat) :
    Except ApiError (State × Session) :=
  match st.subjects.find? (fun s => s.id == subjectId) with
  | none => .error .subjectNotFound
  | some subject =>
    match st.users.find? (fun u => u.id == facultyId) with
    | none => .error .facultyNotFound
    | some faculty =>
      let totalStudents : Int :=
        (st.users.filter (fun u =>
          u.role == Role.student && u.department == department &&
          u.division == division && u.semester == semester && u.isActive)).length
      let session : Session :=
        { sessionId := toString now ++ "_" ++ toString facultyId ++ "_" ++ toString subjectId
          subject := subjectId
          subjectName := subject.name
          faculty := facultyId
          facultyName := faculty.username
          date := now
          startTime := now
          endTime := none
          division := division
          department := department
          semester := semester
          totalStudents := totalStudents
          presentStudents := 0
          absentStudents := 0
          status := SessStatus.active }
      .ok ({ st with sessions := st.sessions ++ [session] }, session)

/-- PUT /session/:sessionId/end: finds the caller's active session, counts
records with status 'present' for the sessionId, sets
`absentStudents := totalStudents - presentCount`, stamps the end time and
marks the session completed, saving it in place. -/
def closeSession (st : State) (facultyId : Nat) (sessionId : String) (now : Nat) :
    Except ApiError (State × Session) :=
  match st.sessions.find? (activeSessionPred sessionId facultyId) with
  | none => .error .activeSessionNotFound
  | some session =>
    let presentCount : Int :=
      (st.records.filter (fun r =>
        r.sessionId == sessionId && r.status == AttStatus.present)).length
    let updated : Session :=
      { session with
        endTime := some now
        presentStudents := presentCount
        absentStudents := session.totalStudents - presentCount
        status := SessStatus.completed }
    .ok ({ st with
            sessions := updateFirst (activeSessionPred sessionId facultyId)
              (fun _ => updated) st.sessions },
         updated)

/-- POST /mark: requires an active session of the calling faculty member
(400 'Invalid or inactive session' otherwise) and an existing user with
role student (400 'Student not found' otherwise); then upserts by the
natural key (student, sessionId): the first mark appends a new record
denormalised from the session and the user documents, a later mark
overwrites status/detectionConfidence/remarks of the existing record in
place.  The faculty document is dereferenced only on the create path
(`faculty.username`); a missing faculty there throws in the source and
surfaces as the generic 500, modelled as `serverError`. -/
def mark (st : State) (facultyId : Nat) (sessionId : String) (studentId : Nat)
    (status : AttStatus) (confidence : Option ℚ) (remark : Option String) :
    Except ApiError (State × Record) :=
  match st.sessions.find? (activeSessionPred sessionId facultyId) with
  | none => .error .invalidSession
  | some session =>
    match st.users.find? (fun u => u.id == studentId) with
    | none => .error .studentNotFound
    | some student =>
      if student.role ≠ Role.student then .error .studentNotFound
      else
        match st.records.find? (pairPred studentId sessionId) with
        | some existing =>
          let updated := applyMark status confidence remark existing
          .ok ({ st with
                  records := updateFirst (pairPred studentId sessionId)
                    (applyMark status confidence remark) st.records },
               updated)
        | none =>
          match st.users.find? (fun u => u.id == facultyId) with
          | none => .error .serverError
          | some faculty =>
            let created : Record :=
              { student := studentId
                studentName := student.username
                enrollmentNumber := student.enrollmentNumber
                subject := session.subject
                subjectName := session.subjectName
                faculty := facultyId
                facultyName := faculty.username
                date := session.date
                status := status
                division := session.division
                department := session.department
                semester := session.semester
                sessionId := sessionId
                detectionConfidence := confidence.getD 0
                remarks := remark.getD "" }
            .ok ({ st with records := st.records ++ [created] }, created)

/-- The per-subject accumulator of the statistics pass of
GET /student/:studentId (the `stats[subjectKey]` object before the
percentage pass). -/
structure Counts where
  subjectKey : Nat
  subjectName : String
  total : Nat
  present : Nat
  absent : Nat
  late : Nat
deriving DecidableEq, Repr

/-- The fresh accumulator created on first sight of a subject:
`{ subjectName: record.subjectName, total: 0, present: 0, absent: 0, late: 0 }`. -/
def initCounts (r : Record) : Counts :=
  { subjectKey := r.subject
    subjectName := r.subjectName
    total := 0
    present := 0
    absent := 0
    late := 0 }

/-- The two increments `stats[key].total++; stats[key][record.status]++`. -/
def bump (c : Counts) (s : AttStatus) : Counts :=
  match s with
  | .present => { c with total := c.total + 1, present := c.present + 1 }
  | .absent => { c with total := c.total + 1, absent := c.absent + 1 }
  | .late => { c with total := c.total + 1, late := c.late + 1 }

/-- One loop iteration of the statistics pass: create the accumulator for the
record's subject if absent (JS object insertion order = append), then bump it. -/
def addRecord (acc : List Counts) (r : Record) : List Counts :=
  if acc.any (fun c => c.subjectKey == r.subject) then
    updateFirst (fun c => c.subjectKey == r.subject) (fun c => bump c r.status) acc
  else
    acc ++ [bump (initCounts r) r.status]

/-- The grouping pass over the fetched records, in fetch order. -/
def accumStats (rs : List Record) : List Counts :=
  rs.foldl addRecord []

/-- JavaScript `Number.toFixed(1)` on a non-negative value: round to one decimal place,
ties away from zero (the larger candidate). -/
def roundTenths (q : ℚ) : ℚ :=
  (⌊q * 10 + 1 / 2⌋ : ℚ) / 10

/-- The source line `stat.percentage = stat.total > 0 ? ((present + late) / total * 100).toFixed(1) : 0`. -/
def percentageOf (c : Counts) : ℚ :=
  if c.total > 0 then roundTenths (((c.present : ℚ) + (c.late : ℚ)) / (c.total : ℚ) * 100)
  else 0

/-- The source line `stat.status = percentage >= 90 ? 'excellent' : percentage >= 75 ? 'good' : 'bad'`
(the string percentage is coerced back to a number by `>=`; on one-decimal
values that comparison agrees with the exact rational comparison). -/
def classify (p : ℚ) : String :=
  if p ≥ 90 then "excellent" else if p ≥ 75 then "good" else "bad"

/-- One element of the `statistics` array of the response. -/
structure SubjectStat where
  subjectKey : Nat
  subjectName : String
  total : Nat
  present : Nat
  absent : Nat
  late : Nat
  percentage : ℚ
  statusLabel : String
deriving DecidableEq, Repr

/-- The percentage pass: attach percentage and classification to an accumulator. -/
def finishStat (c : Counts) : SubjectStat :=
  { subjectKey := c.subjectKey
    subjectName := c.subjectName
    total := c.total
    present := c.present
    absent := c.absent
    late := c.late
    percentage := percentageOf c
    statusLabel := classify (percentageOf c) }

/-- The whole statistics computation of GET /student/:studentId. -/
def computeStats (rs : List Record) : List SubjectStat :=
  (accumStats rs).map finishStat

/-- Truth of an optional query filter: absent, or its test passes. -/
def optMatch {β : Type} (o : Option β) (test : β → Bool) : Bool :=
  match o with
  | none => true
  | some x => test x

/-- The `.sort({ date: -1 })` of GET /student/:studentId. -/
def sortByDateDesc (rs : List Record) : List Record :=
  rs.mergeSort (fun a b => b.date < a.date || a.date == b.date)

/-- GET /student/:studentId: a caller with role student may only query their
own id (403 'Access denied' otherwise); returns the student's records,
optionally filtered by subject and by a date range (applied only when both
endpoints are supplied), sorted by date descending, together with the
per-subject statistics. -/
def getStudentAttendance (st : State) (callerRole : Role) (callerId : Nat)
    (studentId : Nat) (subjectId : Option Nat) (dateRange : Option (Nat × Nat)) :
    Except ApiError (List Record × List SubjectStat) :=
  if callerRole == Role.student && callerId != studentId then .error .accessDenied
  else
    let found := sortByDateDesc (st.records.filter (fun r =>
      r.student == studentId &&
      optMatch subjectId (fun x => r.subject == x) &&
      optMatch dateRange (fun se => se.1 ≤ r.date && r.date ≤ se.2)))
    .ok (found, computeStats found)

/-- The optional query filters of GET /report. -/
structure ReportFilter where
  subjectId : Option Nat
  division : Option String
  department : Option String
  semester : Option Nat
  dateRange : Option (Nat × Nat)
  facultyId : Option Nat
deriving DecidableEq, Repr

/-- Whether a record passes the report filters, given the effective faculty
filter (the handler overwrites `filter.faculty` with the caller's id when
the caller's role is faculty, after the requested facultyId was applied). -/
def reportMatch (f : ReportFilter) (effFaculty : Option Nat) (r : Record) : Bool :=
  optMatch f.subjectId (fun x => r.subject == x) &&
  optMatch f.division (fun x => r.division == x) &&
  optMatch f.department (fun x => r.department == x) &&
  optMatch f.semester (fun x => r.semester == x) &&
  optMatch effFaculty (fun x => r.faculty == x) &&
  optMatch f.dateRange (fun se => se.1 ≤ r.date && r.date ≤ se.2)

/-- The `.sort({ date: -1, studentName: 1 })` of GET /report. -/
def sortReport (rs : List Record) : List Record :=
  rs.mergeSort (fun a b =>
    b.date < a.date || (a.date == b.date && decide (a.studentName ≤ b.studentName)))

/-- GET /report: builds the filter from the query, then — when the caller's
role is faculty — forces the faculty filter to the caller's own id,
discarding any requested facultyId; admins keep the requested filter. -/
def getReport (st : State) (callerRole : Role) (callerId : Nat)
    (f : ReportFilter) : List Record :=
  let effFaculty : Option Nat :=
    if callerRole == Role.faculty then some callerId else f.facultyId
  sortReport (st.records.filter (reportMatch f effFaculty))

/-! ### Helper lemmas on `updateFirst` and filtered lists -/

theorem length_updateFirst {α : Type} (p : α → Bool) (f : α → α) (l : List α) :
    (updateFirst p f l).length = l.length := by
  induction l with
  | nil => rfl
  | cons x xs ih =>
    by_cases hx : p x <;> simp [updateFirst, hx, ih]

theorem find?_of_filter_eq_singleton {α : Type} {p : α → Bool} {l : List α} {a : α}
    (h : l.filter p = [a]) : l.find? p = some a := by
  induction l with
  | nil => simp at h
  | cons x xs ih =>
    by_cases hx : p x
    · rw [List.filter_cons_of_pos hx] at h
      injection h with h1 h2
      subst h1
      simp [List.find?_cons, hx]
    · rw [List.filter_cons_of_neg hx] at h
      simp [List.find?_cons, hx, ih h]

theorem filter_updateFirst_of_singleton {α : Type} {p : α → Bool} {f : α → α}
    {l : List α} {a : α} (h : l.filter p = [a]) (hfa : p (f a)) :
    (updateFirst p f l).filter p = [f a] := by
  induction l with
  | nil => simp at h
  | cons x xs ih =>
    by_cases hx : p x
    · rw [List.filter_cons_of_pos hx] at h
      injection h with h1 h2
      subst h1
      simp [updateFirst, hx, List.filter_cons_of_pos hfa, h2]
    · rw [List.filter_cons_of_neg hx] at h
      simp [updateFirst, hx, List.filter_cons_of_neg hx, ih h]

theorem eq_of_mem_filter_len_le_one {α : Type} {key : α → Bool} {l : List α}
    (hu : (l.filter key).length ≤ 1) {a b : α}
    (ha : a ∈ l) (hb : b ∈ l) (hka : key a = true) (hkb : key b = true) : a = b := by
  have ha' : a ∈ l.filter key := List.mem_filter.2 ⟨ha, hka⟩
  have hb' : b ∈ l.filter key := List.mem_filter.2 ⟨hb, hkb⟩
  rcases hfk : l.filter key with _ | ⟨x, _ | ⟨y, t⟩⟩
  · rw [hfk] at ha'
    simp at ha'
  · rw [hfk] at ha' hb'
    simp at ha' hb'
    rw [ha', hb']
  · rw [hfk] at hu
    simp at hu

theorem updateFirst_unique_key {α : Type} {key p : α → Bool} {f : α → α} {l : List α}
    (hp : ∀ x, p x = true → key x = true)
    (hu : (l.filter key).length ≤ 1) {a : α} (ha : l.find? p = some a) :
    ∀ t ∈ updateFirst p f l, key t = true → t = f a := by
  induction l with
  | nil => simp at ha
  | cons x xs ih =>
    by_cases hx : p x
    · rw [List.find?_cons_of_pos _ hx] at ha
      injection ha with ha
      subst ha
      intro t ht hkt
      rw [updateFirst, if_pos hx] at ht
      rcases List.mem_cons.1 ht with h | h
      · exact h
      · exfalso
        have hkx : key x = true := hp x hx
        rw [List.filter_cons_of_pos hkx, List.length_cons] at hu
        have hmem : t ∈ xs.filter key := List.mem_filter.2 ⟨h, hkt⟩
        have : 1 ≤ (xs.filter key).length := List.length_pos.2 (List.ne_nil_of_mem hmem)
        omega
    · rw [List.find?_cons_of_neg _ hx] at ha
      intro t ht hkt
      rw [updateFirst, if_neg hx] at ht
      rcases List.mem_cons.1 ht with h | h
      · exfalso
        subst h
        have hamem : a ∈ xs := List.mem_of_find?_eq_some ha
        have hka : key a = true := hp a (List.find?_some ha)
        have hamem' : a ∈ xs.filter key := List.mem_filter.2 ⟨hamem, hka⟩
        rw [List.filter_cons_of_pos hkt, List.length_cons] at hu
        have : 1 ≤ (xs.filter key).length := List.length_pos.2 (List.ne_nil_of_mem hamem')
        omega
      · have hu' : (xs.filter key).length ≤ 1 := by
          by_cases hkx : key x
          · rw [List.filter_cons_of_pos hkx, List.length_cons] at hu
            omega
          · rwa [List.filter_cons_of_neg hkx] at hu
        exact ih hu' ha t h hkt

/-! ### Inversion lemmas for `mark` and `closeSession` -/

/-- Everything a successful `mark` implies: the active-session and
valid-student lookups succeeded, and the store either gained exactly the
returned record (create path) or had the first (student, session) match
rewritten by `applyMark` (update path). -/
theorem mark_ok_inv {st : State} {f : Nat} {sid : String} {stu : Nat}
    {status : AttStatus} {conf : Option ℚ} {rem : Option String}
    {st' : State} {r : Record}
    (hok : mark st f sid stu status conf rem = .ok (st', r)) :
    (∃ s, st.sessions.find? (activeSessionPred sid f) = some s) ∧
    (∃ u, st.users.find? (fun u => u.id == stu) = some u ∧ u.role = Role.student) ∧
    st'.sessions = st.sessions ∧
    ((∃ r₀, st.records.find? (pairPred stu sid) = some r₀ ∧
        r = applyMark status conf rem r₀ ∧
        st'.records = updateFirst (pairPred stu sid) (applyMark status conf rem) st.records) ∨
     (st.records.find? (pairPred stu sid) = none ∧
        st'.records = st.records ++ [r] ∧
        r.student = stu ∧ r.sessionId = sid ∧ r.status = status ∧
        r.detectionConfidence = conf.getD 0 ∧ r.remarks = rem.getD "")) := by
  rcases h1 : st.sessions.find? (activeSessionPred sid f) with _ | session
  · simp [mark, h1] at hok
  · rcases h2 : st.users.find? (fun u => u.id == stu) with _ | student
    · simp [mark, h1, h2] at hok
    · by_cases h3 : student.role = Role.student
      · rcases h4 : st.records.find? (pairPred stu sid) with _ | existing
        · rcases h5 : st.users.find? (fun u => u.id == f) with _ | faculty
          · simp [mark, h1, h2, h3, h4, h5] at hok
          · simp [mark, h1, h2, h3, h4, h5] at hok
            obtain ⟨hst', hr⟩ := hok
            refine ⟨⟨session, rfl⟩, ⟨student, h2, h3⟩, by rw [← hst'], Or.inr ⟨rfl, ?_, ?_, ?_, ?_, ?_, ?_⟩⟩
            · rw [← hst', ← hr]
            · rw [← hr]
            · rw [← hr]
            · rw [← hr]
            · rw [← hr]
            · rw [← hr]
        · simp [mark, h1, h2, h3, h4] at hok
          obtain ⟨hst', hr⟩ := hok
          refine ⟨⟨session, rfl⟩, ⟨student, h2, h3⟩, by rw [← hst'], Or.inl ⟨existing, rfl, ?_, ?_⟩⟩
          · rw [← hr]
          · rw [← hst']
      · simp [mark, h1, h2, h3] at hok

/-- The function `mark` fails with the 400 'Invalid or inactive session' exactly when no
active session of the calling faculty member matches the sessionId. -/
theorem mark_error_no_session {st : State} {f : Nat} {sid : String} {stu : Nat}
    {status : AttStatus} {conf : Option ℚ} {rem : Option String}
    (hnone : st.sessions.find? (activeSessionPred sid f) = none) :
    mark st f sid stu status conf rem = .error .invalidSession := by
  simp [mark, hnone]

/-- Everything a successful `closeSession` implies. -/
theorem closeSession_ok_inv {st : State} {f : Nat} {sid : String} {now : Nat}
    {st' : State} {s : Session}
    (hok : closeSession st f sid now = .ok (st', s)) :
    ∃ s₀, st.sessions.find? (activeSessionPred sid f) = some s₀ ∧
      s = { s₀ with
              endTime := some now
              presentStudents := ((st.records.filter (fun r =>
                r.sessionId == sid && r.status == AttStatus.present)).length : Int)
              absentStudents := s₀.totalStudents -
                ((st.records.filter (fun r =>
                  r.sessionId == sid && r.status == AttStatus.present)).length : Int)
              status := SessStatus.completed } ∧
      st' = { st with
                sessions := updateFirst (activeSessionPred sid f) (fun _ => s) st.sessions } := by
  rcases h1 : st.sessions.find? (activeSessionPred sid f) with _ | session
  · simp [closeSession, h1] at hok
  · simp [closeSession, h1] at hok
    obtain ⟨hst', hs⟩ := hok
    exact ⟨session, rfl, hs.symm, by rw [← hst', ← hs]⟩

/-- Unfolding of the Boolean session lookup into a proposition. -/
theorem activeSessionPred_iff {sid : String} {f : Nat} {s : Session} :
    activeSessionPred sid f s = true ↔
      (s.sessionId = sid ∧ s.faculty = f ∧ s.status = SessStatus.active) := by
  simp [activeSessionPred, and_assoc]

/-- Present + absent as stored at close time always telescope to the
snapshot, because the handler defines absent as total minus present. -/
theorem close_sum_helper {st : State} {f : Nat} {sid : String} {now : Nat}
    {st' : State} {s : Session}
    (hok : closeSession st f sid now = .ok (st', s)) :
    s.presentStudents + s.absentStudents = s.totalStudents := by
  obtain ⟨s₀, hfind, hs, hst'⟩ := closeSession_ok_inv hok
  subst hs
  simp

/-! ### Concrete worlds used by the witnesses -/

def wFaculty : User :=
  { id := 1, username := "prof", role := Role.faculty, department := "CSE",
    division := "A", semester := 3, isActive := true, enrollmentNumber := "" }

def wStudent : User :=
  { id := 2, username := "alice", role := Role.student, department := "CSE",
    division := "A", semester := 3, isActive := true, enrollmentNumber := "EN2" }

def wSubject : Subject := { id := 10, name := "Algebra" }

def wSession : Session :=
  { sessionId := "s1", subject := 10, subjectName := "Algebra", faculty := 1,
    facultyName := "prof", date := 50, startTime := 50, endTime := none,
    division := "A", department := "CSE", semester := 3, totalStudents := 2,
    presentStudents := 0, absentStudents := 0, status := SessStatus.active }

def wSt : State :=
  { users := [wFaculty, wStudent], subjects := [wSubject],
    sessions := [wSession], records := [] }

def wRec : Record :=
  { student := 2, studentName := "alice", enrollmentNumber := "EN2", subject := 10,
    subjectName := "Algebra", faculty := 1, facultyName := "prof", date := 50,
    status := AttStatus.present, division := "A", department := "CSE", semester := 3,
    sessionId := "s1", detectionConfidence := 9 / 10, remarks := "auto" }

def wStRec : State := { wSt with records := [wRec] }

def wRecLate : Record :=
  { wRec with status := AttStatus.late, detectionConfidence := 0, remarks := "" }

def wStLate : State := { wSt with records := [wRecLate] }

/-! ### Claims -/

/-- Claim C3: a successful CloseSession returns the session with
presentStudents equal to the number of attendance records of that sessionId
with status present, absentStudents equal to totalStudents minus that count
(late and absent records do not enter the subtraction), endTime set to the
close time, status completed, and totalStudents unchanged from the
open-time snapshot carried by the session that was found active. -/
theorem closeSession_final_counts (st : State) (f : Nat) (sid : String) (now : Nat)
    (st' : State) (s : Session)
    (hok : closeSession st f sid now = .ok (st', s)) :
    s.presentStudents = ((st.records.filter (fun r =>
        r.sessionId == sid && r.status == AttStatus.present)).length : Int) ∧
    s.absentStudents = s.totalStudents - s.presentStudents ∧
    s.endTime = some now ∧
    s.status = SessStatus.completed ∧
    ∃ s₀, st.sessions.find? (activeSessionPred sid f) = some s₀ ∧
      s.totalStudents = s₀.totalStudents := by
  obtain ⟨s₀, hfind, hs, hst'⟩ := closeSession_ok_inv hok
  subst hs
  exact ⟨rfl, rfl, rfl, rfl, s₀, hfind, rfl⟩

theorem closeSession_final_counts_witness :
    ∃ st' s, closeSession wStRec 1 "s1" 70 = .ok (st', s) ∧
      (s.presentStudents = ((wStRec.records.filter (fun r =>
          r.sessionId == "s1" && r.status == AttStatus.present)).length : Int) ∧
       s.absentStudents = s.totalStudents - s.presentStudents ∧
       s.endTime = some 70 ∧
       s.status = SessStatus.completed ∧
       ∃ s₀, wStRec.sessions.find? (activeSessionPred "s1" 1) = some s₀ ∧
         s.totalStudents = s₀.totalStudents) := by
  refine ⟨_, _, rfl, closeSession_final_counts wStRec 1 "s1" 70 _ _ rfl⟩

/-- Claim C4 (counterexample): the claim asserts that after CloseSession the
equation absentCount + presentCount == totalStudents can fail when a late
record exists; no such scenario exists, because the handler defines
absentStudents as totalStudents - presentStudents. -/
theorem closeSession_sum_claim_refuted :
    ¬ ∃ (st : State) (f : Nat) (sid : String) (now : Nat) (st' : State) (s : Session),
      (∃ r ∈ st.records, r.sessionId = sid ∧ r.status = AttStatus.late) ∧
      closeSession st f sid now = .ok (st', s) ∧
      s.presentStudents + s.absentStudents ≠ s.totalStudents := by
  rintro ⟨st, f, sid, now, st', s, -, hok, hne⟩
  exact hne (close_sum_helper hok)

/-- Claim C4 (amended): after every successful CloseSession — late records
present or not — presentStudents + absentStudents equals totalStudents,
since absentStudents is computed as totalStudents minus presentStudents;
late records make absentStudents disagree with the number of records marked
absent, not with this equation. -/
theorem closeSession_present_add_absent_eq_total (st : State) (f : Nat) (sid : String)
    (now : Nat) (st' : State) (s : Session)
    (hok : closeSession st f sid now = .ok (st', s)) :
    s.presentStudents + s.absentStudents = s.totalStudents :=
  close_sum_helper hok

theorem closeSession_present_add_absent_eq_total_witness :
    ∃ st' s, closeSession wStLate 1 "s1" 60 = .ok (st', s) ∧
      s.presentStudents + s.absentStudents = s.totalStudents := by
  refine ⟨_, _, rfl, closeSession_present_add_absent_eq_total wStLate 1 "s1" 60 _ _ rfl⟩

/-- Claim C8: the student-history query fails with the 403 'Access denied'
exactly for a caller of role student asking about a different studentId (and
then returns no records, the error carrying none); a student querying their
own id, or a caller of any other role, passes the check and receives a
result. -/
theorem studentQuery_access_control (st : State) (role : Role) (cid sid : Nat)
    (subj : Option Nat) (dr : Option (Nat × Nat)) :
    (role = Role.student → cid ≠ sid →
      getStudentAttendance st role cid sid subj dr = .error .accessDenied) ∧
    (¬(role = Role.student ∧ cid ≠ sid) →
      ∃ out, getStudentAttendance st role cid sid subj dr = .ok out) := by
  constructor
  · intro h1 h2
    simp [getStudentAttendance, h1, h2]
  · intro h
    have hc : (role == Role.student && cid != sid) = false := by
      by_cases hr : role = Role.student
      · have : cid = sid := by
          by_contra hcne
          exact h ⟨hr, hcne⟩
        simp [this]
      · simp [hr]
    simp [getStudentAttendance, hc]

theorem studentQuery_access_control_witness :
    getStudentAttendance wSt Role.student 5 2 none none = .error .accessDenied :=
  (studentQuery_access_control wSt Role.student 5 2 none none).1 rfl (by decide)

/-- Claim C6: `mark` fails with the 400 'Invalid or inactive session' when no
session matches (sessionId, faculty = caller, status active); given such a
session it fails with the 400 'Student not found' when no user with the
target id and role student exists; and a successful mark implies both
preconditions held and the store was changed by exactly an append of the
returned record or an in-place update of the first (student, session)
match. -/
theorem mark_preconditions (st : State) (f : Nat) (sid : String) (stu : Nat)
    (status : AttStatus) (conf : Option ℚ) (rem : Option String) :
    ((¬ ∃ s ∈ st.sessions, s.sessionId = sid ∧ s.faculty = f ∧
        s.status = SessStatus.active) →
      mark st f sid stu status conf rem = .error .invalidSession) ∧
    ((∃ s ∈ st.sessions, s.sessionId = sid ∧ s.faculty = f ∧
        s.status = SessStatus.active) →
      (¬ ∃ u ∈ st.users, u.id = stu ∧ u.role = Role.student) →
      mark st f sid stu status conf rem = .error .studentNotFound) ∧
    (∀ st' r, mark st f sid stu status conf rem = .ok (st', r) →
      (∃ s ∈ st.sessions, s.sessionId = sid ∧ s.faculty = f ∧
        s.status = SessStatus.active) ∧
      (∃ u ∈ st.users, u.id = stu ∧ u.role = Role.student) ∧
      (st'.records = st.records ++ [r] ∨
       st'.records = updateFirst (pairPred stu sid) (applyMark status conf rem)
         st.records)) := by
  refine ⟨?_, ?_, ?_⟩
  · intro h
    apply mark_error_no_session
    rw [List.find?_eq_none]
    intro x hx hpx
    exact h ⟨x, hx, activeSessionPred_iff.1 hpx⟩
  · intro hsess hstud
    rcases h1 : st.sessions.find? (activeSessionPred sid f) with _ | session
    · exfalso
      obtain ⟨s, hsm, hsp⟩ := hsess
      exact (List.find?_eq_none.1 h1) s hsm (activeSessionPred_iff.2 hsp)
    · rcases h2 : st.users.find? (fun u => u.id == stu) with _ | student
      · simp [mark, h1, h2]
      · have hrole : student.role ≠ Role.student := by
          intro hr
          exact hstud ⟨student, List.mem_of_find?_eq_some h2,
            by simpa using List.find?_some h2, hr⟩
        simp [mark, h1, h2, hrole]
  · intro st' r hok
    obtain ⟨⟨s, hs⟩, ⟨u, hu, hur⟩, -, hbranch⟩ := mark_ok_inv hok
    refine ⟨⟨s, List.mem_of_find?_eq_some hs, activeSessionPred_iff.1 (List.find?_some hs)⟩,
      ⟨u, List.mem_of_find?_eq_some hu, by simpa using List.find?_some hu, hur⟩, ?_⟩
    rcases hbranch with ⟨r₀, -, -, hrecs⟩ | ⟨-, hrecs, -⟩
    · exact Or.inr hrecs
    · exact Or.inl hrecs

theorem mark_preconditions_witness :
    mark wSt 1 "zz" 2 AttStatus.present none none = .error .invalidSession :=
  (mark_preconditions wSt 1 "zz" 2 AttStatus.present none none).1 (by decide)

/-- Claim C10: when `mark` hits an existing (student, session) record it
overwrites status, detectionConfidence and remarks unconditionally — an
omitted or zero confidence stores 0 and an omitted remark stores the empty
string, whatever the previous record held. -/
theorem mark_update_overwrites (st : State) (f : Nat) (sid : String) (stu : Nat)
    (status : AttStatus) (conf : Option ℚ) (rem : Option String)
    (st' : State) (r r₀ : Record)
    (hex : st.records.find? (pairPred stu sid) = some r₀)
    (hok : mark st f sid stu status conf rem = .ok (st', r)) :
    r = applyMark status conf rem r₀ ∧
    r.status = status ∧
    r.detectionConfidence = conf.getD 0 ∧
    r.remarks = rem.getD "" ∧
    ((conf = none ∨ conf = some 0) → r.detectionConfidence = 0) ∧
    (rem = none → r.remarks = "") ∧
    st'.records = updateFirst (pairPred stu sid) (applyMark status conf rem)
      st.records := by
  obtain ⟨-, -, -, hbranch⟩ := mark_ok_inv hok
  rcases hbranch with ⟨r₁, hfind, hr, hrecs⟩ | ⟨hnone, -⟩
  · rw [hex] at hfind
    injection hfind with h
    subst h
    subst hr
    refine ⟨rfl, rfl, rfl, rfl, ?_, ?_, hrecs⟩
    · rintro (rfl | rfl) <;> rfl
    · rintro rfl
      rfl
  · rw [hex] at hnone
    cases hnone

theorem mark_update_overwrites_witness :
    wRec.detectionConfidence = 9 / 10 ∧ wRec.remarks = "auto" ∧
    ∃ st' r, mark wStRec 1 "s1" 2 AttStatus.absent none none = .ok (st', r) ∧
      (r = applyMark AttStatus.absent none none wRec ∧
       r.status = AttStatus.absent ∧
       r.detectionConfidence = (none : Option ℚ).getD 0 ∧
       r.remarks = (none : Option String).getD "" ∧
       (((none : Option ℚ) = none ∨ (none : Option ℚ) = some 0) →
         r.detectionConfidence = 0) ∧
       ((none : Option String) = none → r.remarks = "") ∧
       st'.records = updateFirst (pairPred 2 "s1")
         (applyMark AttStatus.absent none none) wStRec.records) := by
  refine ⟨rfl, rfl, _, _, rfl,
    mark_update_overwrites wStRec 1 "s1" 2 AttStatus.absent none none _ _ wRec rfl rfl⟩

/-- The function `closeSession` is the 404 'Active session not found' when the lookup
comes back empty. -/
theorem closeSession_error_of_none {st : State} {g : Nat} {sid : String} {now : Nat}
    (h : st.sessions.find? (activeSessionPred sid g) = none) :
    closeSession st g sid now = .error .activeSessionNotFound := by
  simp [closeSession, h]

/-- Claim C2: CloseSession succeeds at most once per session.  It fails with
the 404 'Active session not found' when no session matches (sessionId,
faculty = caller, status active); assuming the sessionId identifies at most
one stored session, after a successful close any further close of the same
sessionId — by any caller — fails that way (the status is no longer
active), and a faculty member other than the session's own cannot close it
at all. -/
theorem closeSession_at_most_once (st : State) (sid : String)
    (hu : (st.sessions.filter (fun s => s.sessionId == sid)).length ≤ 1) :
    (∀ g now, (¬ ∃ s ∈ st.sessions, s.sessionId = sid ∧ s.faculty = g ∧
        s.status = SessStatus.active) →
      closeSession st g sid now = .error .activeSessionNotFound) ∧
    (∀ f now st' s, closeSession st f sid now = .ok (st', s) →
      ∀ g now', closeSession st' g sid now' = .error .activeSessionNotFound) ∧
    (∀ s ∈ st.sessions, s.sessionId = sid → ∀ g, g ≠ s.faculty → ∀ now,
      closeSession st g sid now = .error .activeSessionNotFound) := by
  refine ⟨?_, ?_, ?_⟩
  · intro g now h
    apply closeSession_error_of_none
    rw [List.find?_eq_none]
    intro x hx hpx
    exact h ⟨x, hx, activeSessionPred_iff.1 hpx⟩
  · intro f now st' s hok g now'
    obtain ⟨s₀, hfind, hs, hst'⟩ := closeSession_ok_inv hok
    apply closeSession_error_of_none
    rw [List.find?_eq_none]
    intro t ht hpt
    have hkey : ∀ x : Session, activeSessionPred sid f x = true →
        (x.sessionId == sid) = true := by
      intro x hx
      obtain ⟨h1, -, -⟩ := activeSessionPred_iff.1 hx
      simp [h1]
    have hts : t = s := by
      have ht' : t ∈ updateFirst (activeSessionPred sid f) (fun _ => s) st.sessions := by
        rw [hst'] at ht
        exact ht
      have hkt : (t.sessionId == sid) = true := by
        obtain ⟨h1, -, -⟩ := activeSessionPred_iff.1 hpt
        simp [h1]
      exact updateFirst_unique_key hkey hu hfind t ht' hkt
    obtain ⟨-, -, hact⟩ := activeSessionPred_iff.1 hpt
    rw [hts, hs] at hact
    cases hact
  · intro s hs hsid g hg now
    apply closeSession_error_of_none
    rw [List.find?_eq_none]
    intro t ht hpt
    obtain ⟨h1, h2, -⟩ := activeSessionPred_iff.1 hpt
    have : s = t :=
      eq_of_mem_filter_len_le_one hu hs ht (by simp [hsid]) (by simp [h1])
    exact hg (by rw [this, h2])

theorem closeSession_at_most_once_witness :
    ∃ st' s, closeSession wSt 1 "s1" 60 = .ok (st', s) ∧
      closeSession st' 1 "s1" 61 = .error .activeSessionNotFound := by
  refine ⟨_, _, rfl,
    (closeSession_at_most_once wSt "s1" (by decide)).2.1 1 60 _ _ rfl 1 61⟩

/-! ### Sequences of Mark calls for one (student, session) pair -/

/-- The varying data of one /mark request for a fixed (student, session). -/
structure MarkCall where
  facultyId : Nat
  status : AttStatus
  confidence : Option ℚ
  remark : Option String
deriving DecidableEq, Repr

/-- Run a sequence of /mark requests against one (sessionId, studentId)
pair, stopping with `none` as soon as one fails. -/
def runMarks (sessionId : String) (studentId : Nat) : State → List MarkCall → Option State
  | st, [] => some st
  | st, c :: cs =>
    match mark st c.facultyId sessionId studentId c.status c.confidence c.remark with
    | .ok (st', _) => runMarks sessionId studentId st' cs
    | .error _ => none

/-- The last element of `c :: cs`, by structural recursion. -/
def lastOf (c : MarkCall) : List MarkCall → MarkCall
  | [] => c
  | c' :: cs => lastOf c' cs

theorem lastOf_eq_getLast (c : MarkCall) (cs : List MarkCall) :
    lastOf c cs = (c :: cs).getLast (List.cons_ne_nil c cs) := by
  induction cs generalizing c with
  | nil => rfl
  | cons c' cs ih =>
    show lastOf c' cs = _
    rw [ih c']
    exact (List.getLast_cons (List.cons_ne_nil c' cs)).symm

/-- A successful first mark for a pair with no record creates exactly one
record carrying the call's values. -/
theorem mark_step_create {st : State} {f : Nat} {sid : String} {stu : Nat}
    {status : AttStatus} {conf : Option ℚ} {rem : Option String}
    {st' : State} {r : Record}
    (h0 : st.records.filter (pairPred stu sid) = [])
    (hok : mark st f sid stu status conf rem = .ok (st', r)) :
    st'.records.filter (pairPred stu sid) = [r] ∧
    st'.records.length = st.records.length + 1 ∧
    r.status = status ∧ r.detectionConfidence = conf.getD 0 ∧
    r.remarks = rem.getD "" := by
  obtain ⟨-, -, -, hbranch⟩ := mark_ok_inv hok
  rcases hbranch with ⟨r₀, hfind, -, -⟩ | ⟨-, hrecs, hstu, hsid, hstat, hconf, hrem⟩
  · exfalso
    have hmem : r₀ ∈ st.records.filter (pairPred stu sid) :=
      List.mem_filter.2 ⟨List.mem_of_find?_eq_some hfind, List.find?_some hfind⟩
    rw [h0] at hmem
    simp at hmem
  · refine ⟨?_, ?_, hstat, hconf, hrem⟩
    · rw [hrecs, List.filter_append, h0]
      simp [pairPred, hstu, hsid]
    · rw [hrecs]
      simp

/-- A successful mark for a pair whose unique record is `r₀` rewrites it in
place: still exactly one record, now carrying the call's values. -/
theorem mark_step_update {st : State} {f : Nat} {sid : String} {stu : Nat}
    {status : AttStatus} {conf : Option ℚ} {rem : Option String}
    {st' : State} {r r₀ : Record}
    (h0 : st.records.filter (pairPred stu sid) = [r₀])
    (hok : mark st f sid stu status conf rem = .ok (st', r)) :
    st'.records.filter (pairPred stu sid) = [r] ∧
    st'.records.length = st.records.length ∧
    r.status = status ∧ r.detectionConfidence = conf.getD 0 ∧
    r.remarks = rem.getD "" := by
  have hfind := find?_of_filter_eq_singleton h0
  obtain ⟨-, -, -, hbranch⟩ := mark_ok_inv hok
  rcases hbranch with ⟨r₁, hfind', hr, hrecs⟩ | ⟨hnone, -⟩
  · rw [hfind] at hfind'
    injection hfind' with h
    subst h
    subst hr
    have hp : pairPred stu sid (applyMark status conf rem r₀) = true := by
      have hp₀ := List.find?_some hfind
      simpa [pairPred, applyMark] using hp₀
    refine ⟨?_, ?_, rfl, rfl, rfl⟩
    · rw [hrecs]
      exact filter_updateFirst_of_singleton h0 hp
    · rw [hrecs]
      exact length_updateFirst _ _ _
  · rw [hfind] at hnone
    cases hnone

/-- Once a pair has exactly one record matching the latest call, any further
successful run keeps exactly one record, matching the last call. -/
theorem runMarks_keeps_singleton (sid : String) (stu : Nat) :
    ∀ (cs : List MarkCall) (st : State) (c : MarkCall) (r : Record) (st' : State),
      st.records.filter (pairPred stu sid) = [r] →
      r.status = c.status → r.detectionConfidence = c.confidence.getD 0 →
      r.remarks = c.remark.getD "" →
      runMarks sid stu st cs = some st' →
      ∃ r', st'.records.filter (pairPred stu sid) = [r'] ∧
        st'.records.length = st.records.length ∧
        r'.status = (lastOf c cs).status ∧
        r'.detectionConfidence = (lastOf c cs).confidence.getD 0 ∧
        r'.remarks = (lastOf c cs).remark.getD "" := by
  intro cs
  induction cs with
  | nil =>
    intro st c r st' hf h1 h2 h3 hrun
    simp only [runMarks, Option.some.injEq] at hrun
    subst hrun
    exact ⟨r, hf, rfl, h1, h2, h3⟩
  | cons c' cs ih =>
    intro st c r st' hf h1 h2 h3 hrun
    simp only [runMarks] at hrun
    cases hm : mark st c'.facultyId sid stu c'.status c'.confidence c'.remark with
    | error e =>
      rw [hm] at hrun
      cases hrun
    | ok p =>
      obtain ⟨st₁, r₁⟩ := p
      rw [hm] at hrun
      obtain ⟨hf₁, hlen₁, hs₁, hc₁, hr₁⟩ := mark_step_update hf hm
      obtain ⟨r', hf', hlen', hs', hc', hr'⟩ :=
        ih st₁ c' r₁ st' hf₁ hs₁ hc₁ hr₁ hrun
      exact ⟨r', hf', by rw [hlen', hlen₁], hs', hc', hr'⟩

/-- Claim C1: starting from a state with no record for the (studentId,
sessionId) pair, any nonempty sequence of successful Mark calls for that
pair leaves exactly one attendance record for the pair — the first call
creates it, each later call updates it in place, the store grows by exactly
one record — and its status, detectionConfidence and remarks equal the last
call's values (after the handler's falsy-defaulting of the optional
fields). -/
theorem mark_upsert_exactly_one (st : State) (sid : String) (stu : Nat)
    (c : MarkCall) (cs : List MarkCall) (st' : State)
    (h0 : st.records.filter (pairPred stu sid) = [])
    (hrun : runMarks sid stu st (c :: cs) = some st') :
    ∃ r, st'.records.filter (pairPred stu sid) = [r] ∧
      st'.records.length = st.records.length + 1 ∧
      r.status = ((c :: cs).getLast (List.cons_ne_nil c cs)).status ∧
      r.detectionConfidence =
        ((c :: cs).getLast (List.cons_ne_nil c cs)).confidence.getD 0 ∧
      r.remarks = ((c :: cs).getLast (List.cons_ne_nil c cs)).remark.getD "" := by
  simp only [← lastOf_eq_getLast]
  simp only [runMarks] at hrun
  cases hm : mark st c.facultyId sid stu c.status c.confidence c.remark with
  | error e =>
    rw [hm] at hrun
    cases hrun
  | ok p =>
    obtain ⟨st₁, r₁⟩ := p
    rw [hm] at hrun
    obtain ⟨hf₁, hlen₁, hs₁, hc₁, hr₁⟩ := mark_step_create h0 hm
    obtain ⟨r', hf', hlen', hs', hc', hr'⟩ :=
      runMarks_keeps_singleton sid stu cs st₁ c r₁ st' hf₁ hs₁ hc₁ hr₁ hrun
    exact ⟨r', hf', by rw [hlen', hlen₁], hs', hc', hr'⟩

def wCallA : MarkCall :=
  { facultyId := 1, status := AttStatus.present,
    confidence := some (1 / 2), remark := some "cam" }

def wCallB : MarkCall :=
  { facultyId := 1, status := AttStatus.late, confidence := none, remark := none }

theorem mark_upsert_exactly_one_witness :
    wSt.records.filter (pairPred 2 "s1") = [] ∧
    ∃ st', runMarks "s1" 2 wSt [wCallA, wCallB] = some st' ∧
      ∃ r, st'.records.filter (pairPred 2 "s1") = [r] ∧
        st'.records.length = wSt.records.length + 1 ∧
        r.status =
          (([wCallA, wCallB] : List MarkCall).getLast
            (List.cons_ne_nil wCallA [wCallB])).status ∧
        r.detectionConfidence =
          (([wCallA, wCallB] : List MarkCall).getLast
            (List.cons_ne_nil wCallA [wCallB])).confidence.getD 0 ∧
        r.remarks =
          (([wCallA, wCallB] : List MarkCall).getLast
            (List.cons_ne_nil wCallA [wCallB])).remark.getD "" := by
  refine ⟨rfl, _, rfl, mark_upsert_exactly_one wSt "s1" 2 wCallA [wCallB] _ rfl rfl⟩

/-- A student user of division B (outside any division-A cohort). -/
def c9Student : User :=
  { id := 2, username := "alice", role := Role.student, department := "CSE",
    division := "B", semester := 3, isActive := true, enrollmentNumber := "EN2" }

/-- A store with one faculty member, one division-B student, one subject,
and no sessions or records. -/
def c9St : State :=
  { users := [wFaculty, c9Student], subjects := [wSubject],
    sessions := [], records := [] }

/-- Claim C9: `mark` never checks the marked student against the session's
(department, division, semester) cohort or their active flag.  Opening a
division-A session here snapshots totalStudents = 0, yet marking the
division-B student present succeeds, so at close time presentStudents
exceeds totalStudents and absentStudents is negative. -/
theorem mark_no_cohort_check :
    ∃ st₁ s₁, openSession c9St 1 10 "A" "CSE" 3 100 = .ok (st₁, s₁) ∧
      s₁.totalStudents = 0 ∧
      (∃ u ∈ c9St.users, u.id = 2 ∧ u.role = Role.student ∧
        u.division ≠ s₁.division) ∧
      ∃ st₂ r, mark st₁ 1 "100_1_10" 2 AttStatus.present none none = .ok (st₂, r) ∧
        ∃ st₃ s₂, closeSession st₂ 1 "100_1_10" 200 = .ok (st₃, s₂) ∧
          s₂.presentStudents > s₂.totalStudents ∧ s₂.absentStudents < 0 := by
  refine ⟨_, _, rfl, rfl, by decide, _, _, rfl, _, _, rfl, by decide, by decide⟩

/-- The faculty filter a record must pass once it is `some`. -/
theorem reportMatch_faculty {f : ReportFilter} {eff : Nat} {r : Record}
    (h : reportMatch f (some eff) r = true) : r.faculty = eff := by
  simp [reportMatch, optMatch] at h
  tauto

/-- Claim C7: for a caller of role faculty the report's effective faculty
filter is the caller's own id whatever facultyId the request carries — two
queries differing only in that parameter return identical results, and
every returned record belongs to the caller — while for an admin the
supplied facultyId filter is applied exactly as given. -/
theorem report_faculty_scope (st : State) (cid : Nat) (flt : ReportFilter) :
    (∀ f1 f2 : Option Nat,
      getReport st Role.faculty cid { flt with facultyId := f1 } =
      getReport st Role.faculty cid { flt with facultyId := f2 }) ∧
    (∀ r ∈ getReport st Role.faculty cid flt, r.faculty = cid) ∧
    (∀ fr : Nat, flt.facultyId = some fr →
      ∀ r ∈ getReport st Role.admin cid flt, r.faculty = fr) ∧
    getReport st Role.admin cid flt =
      sortReport (st.records.filter (reportMatch flt flt.facultyId)) := by
  refine ⟨?_, ?_, ?_, ?_⟩
  · intro f1 f2
    rfl
  · intro r hr
    simp only [getReport, sortReport] at hr
    have hr' := List.mem_mergeSort.1 hr
    have hp := (List.mem_filter.1 hr').2
    exact reportMatch_faculty (by simpa using hp)
  · intro fr hfr r hr
    simp only [getReport, sortReport] at hr
    rw [show ((if (Role.admin == Role.faculty) = true then some cid
        else flt.facultyId) : Option Nat) = flt.facultyId from rfl, hfr] at hr
    have hr' := List.mem_mergeSort.1 hr
    have hp := (List.mem_filter.1 hr').2
    exact reportMatch_faculty hp
  · rfl

def wFlt : ReportFilter :=
  { subjectId := none, division := none, department := none, semester := none,
    dateRange := none, facultyId := none }

theorem report_faculty_scope_witness :
    getReport wStRec Role.faculty 1 { wFlt with facultyId := some 9 } =
      getReport wStRec Role.faculty 1 { wFlt with facultyId := none } :=
  (report_faculty_scope wStRec 1 wFlt).1 (some 9) none

/-- Folding records of a single subject over one accumulator just adds the
length and the per-status counts to it. -/
theorem foldl_addRecord_singleton :
    ∀ (rs : List Record) (c : Counts), (∀ r ∈ rs, r.subject = c.subjectKey) →
      rs.foldl addRecord [c] =
        [{ c with
            total := c.total + rs.length
            present := c.present + rs.countP (fun x => x.status == AttStatus.present)
            absent := c.absent + rs.countP (fun x => x.status == AttStatus.absent)
            late := c.late + rs.countP (fun x => x.status == AttStatus.late) }] := by
  intro rs
  induction rs with
  | nil =>
    intro c hall
    simp
  | cons r rs ih =>
    intro c hall
    have hr : r.subject = c.subjectKey := hall r (List.mem_cons_self r rs)
    rw [List.foldl_cons]
    have haddr : addRecord [c] r = [bump c r.status] := by
      have hkey : (c.subjectKey == r.subject) = true := by simp [hr]
      simp [addRecord, hkey, updateFirst]
    rw [haddr, ih (bump c r.status) (fun x hx => by
      have hxs := hall x (List.mem_cons_of_mem r hx)
      cases hs : r.status <;> simpa [bump, hs] using hxs)]
    cases hs : r.status <;>
      simp [bump, List.countP_cons, hs, Counts.mk.injEq] <;> omega

/-- Ten sample records for one subject with a prescribed status each. -/
def sRec (n : Nat) (s : AttStatus) : Record :=
  { wRec with student := n, status := s, detectionConfidence := 0, remarks := "" }

/-- Ten records: 7 present, 2 late, 1 absent — the spec's worked percentage example. -/
def exampleTen : List Record :=
  [sRec 1 AttStatus.present, sRec 2 AttStatus.present, sRec 3 AttStatus.present,
   sRec 4 AttStatus.present, sRec 5 AttStatus.present, sRec 6 AttStatus.present,
   sRec 7 AttStatus.present, sRec 8 AttStatus.late, sRec 9 AttStatus.late,
   sRec 10 AttStatus.absent]

/-- The accumulator the statistics pass produces for `exampleTen`. -/
def exCounts : Counts :=
  { subjectKey := 10, subjectName := "Algebra", total := 10, present := 7,
    absent := 1, late := 2 }

/-- Claim C5: over any nonempty group of records of one subject the
statistics pass yields a single stats object whose counters are the length
and per-status counts, whose percentage is (present + late) / total × 100
rounded to one decimal place, and whose label is excellent at ≥ 90, good at
≥ 75, else bad; in particular 7 present + 2 late + 1 absent out of 10 give
90.0 and excellent, exactly 75.0 gives good and 74.9 gives bad. -/
theorem perSubjectStats_formula (rs : List Record) (sid : Nat)
    (hne : rs ≠ []) (hall : ∀ r ∈ rs, r.subject = sid) :
    (∃ c : Counts,
      computeStats rs = [finishStat c] ∧
      c.total = rs.length ∧
      c.present = rs.countP (fun x => x.status == AttStatus.present) ∧
      c.late = rs.countP (fun x => x.status == AttStatus.late) ∧
      c.absent = rs.countP (fun x => x.status == AttStatus.absent) ∧
      (finishStat c).percentage =
        roundTenths (((c.present : ℚ) + (c.late : ℚ)) / (rs.length : ℚ) * 100) ∧
      (finishStat c).statusLabel =
        (if (finishStat c).percentage ≥ 90 then "excellent"
         else if (finishStat c).percentage ≥ 75 then "good" else "bad")) ∧
    (computeStats exampleTen).map (fun s =>
      (s.total, s.present, s.late, s.absent, s.percentage, s.statusLabel)) =
      [(10, 7, 2, 1, (90 : ℚ), "excellent")] ∧
    classify 75 = "good" ∧ classify (749 / 10) = "bad" := by
  have hacc10 : accumStats exampleTen = [exCounts] := by decide
  have hpct : percentageOf exCounts = 90 := by
    norm_num [percentageOf, roundTenths, exCounts]
  have hlab : classify (90 : ℚ) = "excellent" := by norm_num [classify]
  refine ⟨?_, ?_, by norm_num [classify], by norm_num [classify]⟩
  case refine_2 =>
    rw [computeStats, hacc10]
    simp only [List.map_cons, List.map_nil, finishStat]
    rw [hpct, hlab]
    rfl
  obtain ⟨r, rs', rfl⟩ := List.exists_cons_of_ne_nil hne
  have hsub : r.subject = sid := hall r (List.mem_cons_self r rs')
  have hall' : ∀ x ∈ rs', x.subject = (bump (initCounts r) r.status).subjectKey := by
    intro x hx
    have hx' := hall x (List.mem_cons_of_mem r hx)
    cases hs : r.status <;> simp [bump, initCounts, hs, hx', hsub]
  have hacc : accumStats (r :: rs') =
      [{ (bump (initCounts r) r.status) with
          total := (bump (initCounts r) r.status).total + rs'.length
          present := (bump (initCounts r) r.status).present +
            rs'.countP (fun x => x.status == AttStatus.present)
          absent := (bump (initCounts r) r.status).absent +
            rs'.countP (fun x => x.status == AttStatus.absent)
          late := (bump (initCounts r) r.status).late +
            rs'.countP (fun x => x.status == AttStatus.late) }] := by
    rw [accumStats, List.foldl_cons]
    rw [show addRecord [] r = [bump (initCounts r) r.status] by simp [addRecord]]
    exact foldl_addRecord_singleton rs' _ hall'
  refine ⟨{ subjectKey := r.subject
            subjectName := r.subjectName
            total := (r :: rs').length
            present := (r :: rs').countP (fun x => x.status == AttStatus.present)
            absent := (r :: rs').countP (fun x => x.status == AttStatus.absent)
            late := (r :: rs').countP (fun x => x.status == AttStatus.late) },
    ?_, rfl, rfl, rfl, rfl, ?_, ?_⟩
  · rw [computeStats, hacc, List.map_cons, List.map_nil]
    congr 1
    congr 1
    cases hs : r.status <;>
      simp [bump, initCounts, List.countP_cons, hs, Counts.mk.injEq] <;> omega
  · simp only [finishStat, percentageOf]
    rw [if_pos (by simp)]
  · rfl

theorem perSubjectStats_formula_witness :
    (exampleTen ≠ [] ∧ ∀ r ∈ exampleTen, r.subject = 10) ∧
    ((∃ c : Counts,
      computeStats exampleTen = [finishStat c] ∧
      c.total = exampleTen.length ∧
      c.present = exampleTen.countP (fun x => x.status == AttStatus.present) ∧
      c.late = exampleTen.countP (fun x => x.status == AttStatus.late) ∧
      c.absent = exampleTen.countP (fun x => x.status == AttStatus.absent) ∧
      (finishStat c).percentage =
        roundTenths (((c.present : ℚ) + (c.late : ℚ)) / (exampleTen.length : ℚ) * 100) ∧
      (finishStat c).statusLabel =
        (if (finishStat c).percentage ≥ 90 then "excellent"
         else if (finishStat c).percentage ≥ 75 then "good" else "bad")) ∧
    (computeStats exampleTen).map (fun s =>
      (s.total, s.present, s.late, s.absent, s.percentage, s.statusLabel)) =
      [(10, 7, 2, 1, (90 : ℚ), "excellent")] ∧
    classify 75 = "good" ∧ classify (749 / 10) = "bad") :=
  ⟨⟨by decide, by decide⟩,
    perSubjectStats_formula exampleTen 10 (by decide) (by decide)⟩

end AttendanceApp
